import Mathlib

/-!
# Verification of the status-line writer engine (tracing-statusbar)

Shallow embedding of the repository's core:

* `src/unthreaded.rs` — `LogWriter::write`, the erase → write → render → track
  sequence executed under a mutex on the calling thread;
* `src/threaded.rs`   — `handle_logs`, the background consumer loop, and
  `ThreadedHandler::drop`;
* `src/log_bridge.rs` — `LogSender::write` / `LogSender::close`, the bounded
  channel plus buffer-pool bridge;
* `src/utils.rs`      — `RawModeGuard`.

Terminal commands issued through crossterm, raw-mode toggles, payload writes,
render-callback invocations and flushes are modelled as an explicit trace of
events.  Sink I/O failures are modelled by an oracle naming the first sink
operation that fails (`crossterm::queue!` writes each command's escape sequence
into the sink, so each queued command is one fallible sink operation, as are
the payload write and each flush).  Byte buffers are `List Nat`.
-/

namespace TracingStatusbar

/-- One observable operation issued by the engines: the abstract terminal
control surface (move to column, clear line, move up, reset attributes), the
raw-mode toggles performed by `RawModeGuard`, the verbatim payload write, the
render-callback invocation (with the line count it returned, `none` when it
failed), and a flush of the sink. -/
inductive Ev
  | moveToColumn (n : Nat)
  | resetColor
  | clearLine
  | moveUp (n : Nat)
  | disableRaw
  | enableRaw
  | writePayload (bytes : List Nat)
  | callback (ret : Option Nat)
  | flush
deriving DecidableEq

/-- Environment behaviour for one `LogWriter::write` call: `failAt = some i`
means the i-th sink operation (0-indexed) returns an I/O error; `cbRet` is what
the render callback returns (`none` = the callback fails with an I/O error). -/
structure Oracle where
  failAt : Option Nat
  cbRet : Option Nat
deriving DecidableEq

/-- Running state while emitting sink operations: the index of the next sink
operation and the trace of events issued so far. -/
structure WS where
  idx : Nat
  trace : List Ev
deriving DecidableEq

/-- Issue one fallible sink operation.  On failure (per the oracle) the
operation is not emitted and the error propagates carrying the trace so far;
on success the event is appended. -/
def doOp (o : Oracle) (e : Ev) (s : WS) : Except (List Ev) WS :=
  if o.failAt = some s.idx then .error s.trace
  else .ok ⟨s.idx + 1, s.trace ++ [e]⟩

/-- Record an infallible event (raw-mode toggles, callback invocation): these
are not sink writes, so they do not consume a sink-operation index. -/
def emit (e : Ev) (s : WS) : WS := ⟨s.idx, s.trace ++ [e]⟩

/-- The erase loop of `LogWriter::write` / `handle_logs`:
`for _ in 0..lines { queue!(output, Clear(CurrentLine), MoveUp(1))?; }`. -/
def eraseLines (o : Oracle) : Nat → WS → Except (List Ev) WS
  | 0, s => .ok s
  | n + 1, s =>
    match doOp o .clearLine s with
    | .error tr => .error tr
    | .ok s1 =>
      match doOp o (.moveUp 1) s1 with
      | .error tr => .error tr
      | .ok s2 => eraseLines o n s2

/-- The erase phase of `LogWriter::write` (src/unthreaded.rs): queue
`MoveToColumn(0), ResetColor`, erase the `lines` previously drawn status
lines, then clear the current line. -/
def prePart (o : Oracle) (lines : Nat) : Except (List Ev) WS :=
  match doOp o (.moveToColumn 0) ⟨0, []⟩ with
  | .error tr => .error tr
  | .ok s1 =>
  match doOp o .resetColor s1 with
  | .error tr => .error tr
  | .ok s2 =>
  match eraseLines o lines s2 with
  | .error tr => .error tr
  | .ok s3 => doOp o .clearLine s3

/-- Result of one `LogWriter::write` call: the trace of issued operations, the
returned `io::Result<usize>` (modelled complete-write-or-error), and the stored
line count after the call (`state.lines`; unchanged when the call errors before
the `state.lines = state.invoke_callback()?` assignment). -/
structure WriteOut where
  trace : List Ev
  result : Except Unit Nat
  newLines : Nat

/-- `LogWriter::write` from src/unthreaded.rs, for one call holding the mutex:
erase phase; construct a `RawModeGuard` when `assume_raw_mode`; write the
payload (on error the guard is dropped — re-enabling raw mode — before the
error propagates); drop the guard; `execute!(output, MoveToColumn(0))`, which
queues the command and then flushes; invoke the render callback; flush; store
the callback's return in `state.lines`. -/
def unthreadedWrite (lines : Nat) (raw : Bool) (payload : List Nat)
    (o : Oracle) : WriteOut :=
  match prePart o lines with
  | .error tr => ⟨tr, .error (), lines⟩
  | .ok s4 =>
  let s5 := if raw then emit .disableRaw s4 else s4
  match doOp o (.writePayload payload) s5 with
  | .error tr => ⟨if raw then tr ++ [.enableRaw] else tr, .error (), lines⟩
  | .ok s6 =>
  let s7 := if raw then emit .enableRaw s6 else s6
  match doOp o (.moveToColumn 0) s7 with
  | .error tr => ⟨tr, .error (), lines⟩
  | .ok s8 =>
  match doOp o .flush s8 with
  | .error tr => ⟨tr, .error (), lines⟩
  | .ok s9 =>
  match o.cbRet with
  | none => ⟨(emit (.callback none) s9).trace, .error (), lines⟩
  | some ret =>
    let s10 := emit (.callback (some ret)) s9
    match doOp o .flush s10 with
    | .error tr => ⟨tr, .error (), ret⟩
    | .ok s11 => ⟨s11.trace, .ok payload.length, ret⟩

/-- The clear-line/move-up pairs emitted by the erase loop for `n` lines. -/
def erasePairs (n : Nat) : List Ev :=
  (List.replicate n [Ev.clearLine, Ev.moveUp 1]).flatten

/-- The full erase-phase trace for a stored line count `lines`. -/
def prePhase (lines : Nat) : List Ev :=
  Ev.moveToColumn 0 :: Ev.resetColor :: (erasePairs lines ++ [Ev.clearLine])

/-- The raw-mode bracket segment: present only when raw mode is assumed. -/
def rawSeg (raw : Bool) (e : Ev) : List Ev := if raw then [e] else []

/-- The operation sequence a failure-free `LogWriter::write` emits, as the
code emits it: note the flush issued by `execute!(output, MoveToColumn(0))`
between the cursor move and the render callback. -/
def codeWriteTrace (lines : Nat) (raw : Bool) (payload : List Nat)
    (ret : Nat) : List Ev :=
  prePhase lines ++ rawSeg raw .disableRaw ++ [Ev.writePayload payload]
    ++ rawSeg raw .enableRaw
    ++ [Ev.moveToColumn 0, Ev.flush, Ev.callback (some ret), Ev.flush]

/-- The operation sequence claim C2 states, transcribed from the spec's words:
move to column 0 and reset attributes; `lines` clear+move-up pairs; one
further clear; (raw) disable raw mode; payload; (raw) enable raw mode; move to
column 0; render callback; flush. -/
def specWriteTrace (lines : Nat) (raw : Bool) (payload : List Nat)
    (ret : Nat) : List Ev :=
  prePhase lines ++ rawSeg raw .disableRaw ++ [Ev.writePayload payload]
    ++ rawSeg raw .enableRaw
    ++ [Ev.moveToColumn 0, Ev.callback (some ret), Ev.flush]

/-- The line count the most recent render-callback invocation in a trace
returned, if any callback in the trace succeeded. -/
def renderOf (tr : List Ev) : Option Nat :=
  tr.reverse.findSome? fun e =>
    match e with
    | .callback (some r) => some r
    | _ => none

/-- The payloads written to the sink by a trace, in order. -/
def writesOf (tr : List Ev) : List (List Nat) :=
  tr.filterMap fun e =>
    match e with
    | .writePayload b => some b
    | _ => none

/-- Whether an event is a render-callback invocation (successful or not). -/
def isCallback : Ev → Bool
  | .callback _ => true
  | _ => false

/-- The number of render-callback invocations in a trace. -/
def cbCount (tr : List Ev) : Nat := (tr.filter isCallback).length

/-! ## The buffer-pool bridge (src/log_bridge.rs)

The mpsc channel carries `Option (List Nat)`: `some bytes` is a log payload,
`none` is the close sentinel.  `receiverAlive` records whether the
`LogReceiver` (owned by the background thread) still exists — `send` returns
`SendError` exactly when it does not.  The free-list channel is the `pool`
queue.  `stdout` collects the bytes printed by the direct-print fallback.
`allocCount` counts the `buf.to_owned()` fresh-buffer allocations.  Both
channels are bounded (capacity 1024); no scenario considered here queues
enough items for the bound to bite, and the ignored `pool.send` result on
entry drop is modelled by `poolReturn` dropping the buffer when full. -/

/-- State of one `LogSender`/`LogReceiver` pair and its surroundings. -/
structure BridgeState where
  chan : List (Option (List Nat))
  receiverAlive : Bool
  pool : List (List Nat)
  stdout : List (List Nat)
  allocCount : Nat
deriving DecidableEq

/-- A freshly `init()`-ed bridge: both channels empty, receiver alive. -/
def initBridge : BridgeState :=
  ⟨[], true, [], [], 0⟩

/-- Whether a continuation byte is well-formed (`0x80..=0xBF`). -/
def utf8Cont (b : Nat) : Bool := decide (0x80 ≤ b ∧ b ≤ 0xBF)

/-- UTF-8 validity of a byte sequence, per `std::str::from_utf8`'s rules
(RFC 3629: no overlong encodings, no surrogates, max U+10FFFF).  The fallback
`print!("{}", from_utf8(..).unwrap_or(""))` emits the bytes only when this
holds, and prints nothing otherwise. -/
def utf8Valid : List Nat → Bool
  | [] => true
  | b :: rest =>
    if b ≤ 0x7F then utf8Valid rest
    else if 0xC2 ≤ b ∧ b ≤ 0xDF then
      match rest with
      | c1 :: r => if utf8Cont c1 then utf8Valid r else false
      | [] => false
    else if b = 0xE0 then
      match rest with
      | c1 :: c2 :: r =>
        if decide (0xA0 ≤ c1 ∧ c1 ≤ 0xBF) && utf8Cont c2 then utf8Valid r
        else false
      | _ => false
    else if (0xE1 ≤ b ∧ b ≤ 0xEC) ∨ b = 0xEE ∨ b = 0xEF then
      match rest with
      | c1 :: c2 :: r =>
        if utf8Cont c1 && utf8Cont c2 then utf8Valid r else false
      | _ => false
    else if b = 0xED then
      match rest with
      | c1 :: c2 :: r =>
        if decide (0x80 ≤ c1 ∧ c1 ≤ 0x9F) && utf8Cont c2 then utf8Valid r
        else false
      | _ => false
    else if b = 0xF0 then
      match rest with
      | c1 :: c2 :: c3 :: r =>
        if decide (0x90 ≤ c1 ∧ c1 ≤ 0xBF) && utf8Cont c2 && utf8Cont c3 then
          utf8Valid r
        else false
      | _ => false
    else if 0xF1 ≤ b ∧ b ≤ 0xF3 then
      match rest with
      | c1 :: c2 :: c3 :: r =>
        if utf8Cont c1 && utf8Cont c2 && utf8Cont c3 then utf8Valid r
        else false
      | _ => false
    else if b = 0xF4 then
      match rest with
      | c1 :: c2 :: c3 :: r =>
        if decide (0x80 ≤ c1 ∧ c1 ≤ 0x8F) && utf8Cont c2 && utf8Cont c3 then
          utf8Valid r
        else false
      | _ => false
    else false

/-- The bytes the fallback `print!` actually emits for a buffer. -/
def utf8Print (b : List Nat) : List Nat := if utf8Valid b then b else []

/-- `buffer.truncate(0); buffer.extend(buf)` on a reused pooled buffer. -/
def truncateExtend (old new : List Nat) : List Nat := old.take 0 ++ new

/-- `LogSender::write` (src/log_bridge.rs): pop a buffer from the free list
non-blockingly (empty or closed pool allocates a fresh one via
`buf.to_owned()`), refill it, then `sender.send(Some(buffer))`; when the
receiver is gone the `SendError` payload is printed directly to stdout.
Returns the new state and the `io::Result<usize>`, which is always
`Ok(buf.len())`. -/
def senderWrite (s : BridgeState) (buf : List Nat) :
    BridgeState × Except Unit Nat :=
  let (buffer, pool1, allocs) :=
    match s.pool with
    | b :: rest => (truncateExtend b buf, rest, s.allocCount)
    | [] => (buf, [], s.allocCount + 1)
  if s.receiverAlive then
    (⟨s.chan ++ [some buffer], s.receiverAlive, pool1, s.stdout, allocs⟩,
     .ok buf.length)
  else
    (⟨s.chan, s.receiverAlive, pool1, s.stdout ++ [utf8Print buffer], allocs⟩,
     .ok buf.length)

/-- `LogSender::close` (src/log_bridge.rs): `let _ = self.sender.send(None)` —
enqueue one sentinel; the send error when the receiver is gone is ignored. -/
def senderClose (s : BridgeState) : BridgeState :=
  if s.receiverAlive then { s with chan := s.chan ++ [none] } else s

/-- `LogEntry::drop`: send the buffer back to the free-list channel; the
result is ignored, so a full pool channel simply drops the buffer. -/
def poolReturn (pool : List (List Nat)) (b : List Nat) : List (List Nat) :=
  if pool.length < 1024 then pool ++ [b] else pool

/-- The consumer side viewed at the bridge level: `LogReceiver::recv` in a
loop, each received `LogEntry` read and then dropped (returning its buffer to
the pool).  Payload entries are delivered in order; the sentinel ends the loop
and the `LogReceiver` is dropped with it, discarding whatever is still queued
behind the sentinel.  An empty channel leaves the consumer blocked in `recv`
with the receiver still alive. -/
def consumerRunAux (alive : Bool) :
    List (Option (List Nat)) → List (List Nat) → List (List Nat) → Nat →
    List (List Nat) × BridgeState
  | [], pool, out, ac => ([], ⟨[], alive, pool, out, ac⟩)
  | none :: _, pool, out, ac => ([], ⟨[], false, pool, out, ac⟩)
  | some b :: rest, pool, out, ac =>
    let r := consumerRunAux alive rest (poolReturn pool b) out ac
    (b :: r.1, r.2)

def consumerRun (s : BridgeState) : List (List Nat) × BridgeState :=
  consumerRunAux s.receiverAlive s.chan s.pool s.stdout s.allocCount

/-- One sequential send → drain → release cycle: the producer writes `buf`,
the consumer receives the single queued entry and drops it, returning the
buffer to the free list.  Yields the bytes the consumer observed. -/
def sendDrainCycle (s : BridgeState) (buf : List Nat) :
    Option (List Nat) × BridgeState :=
  let s1 := (senderWrite s buf).1
  match s1.chan with
  | some b :: rest =>
    (some b, { s1 with chan := rest, pool := poolReturn s1.pool b })
  | _ => (none, s1)

/-- N sequential send → drain → release cycles. -/
def runCycles (s : BridgeState) : List (List Nat) →
    List (Option (List Nat)) × BridgeState
  | [] => ([], s)
  | b :: bs =>
    let (d, s1) := sendDrainCycle s b
    let (ds, s2) := runCycles s1 bs
    (d :: ds, s2)

/-! ## The threaded engine (src/threaded.rs)

`handle_logs` runs on the background thread with infallible-or-panic I/O
(every operation is `.expect(..)`), so its model carries no failure oracle.
The messages already queued when a burst is processed are a
`List (Option (List Nat))`; `none` is the close sentinel. -/

/-- The inner drain loop of `handle_logs`: non-blocking `try_recv` until the
channel reports `Empty` (queue exhausted with senders alive, `disc = false`)
or `Closed` (a sentinel, or exhausted with all senders dropped,
`disc = true`).  Returns the write events it issued and whether the loop ended
with `Closed` (which makes `handle_logs` return). -/
def drainMsgs (disc : Bool) : List (Option (List Nat)) → List Ev × Bool
  | [] => ([], disc)
  | some b :: rest =>
    let (tr, c) := drainMsgs disc rest
    (Ev.writePayload b :: tr, c)
  | none :: _ => ([], true)

/-- One iteration of the `while let Some(entry) = receiver.recv()` loop in
`handle_logs`, processing the burst whose first payload was block-received
while `queued` was already in the channel: erase phase, raw-mode guard, write
the first payload, drain and write the queued payloads, then either return
(drain saw `Closed`; the guard is dropped on the way out and nothing further
is issued) or drop the guard, `execute!(MoveToColumn(0))` (queue + flush),
invoke the callback once, flush, and store its return as the new line
count (`none` result = the loop returned). -/
def handleBurst (lines : Nat) (raw : Bool) (first : List Nat)
    (queued : List (Option (List Nat))) (disc : Bool) (cbRet : Nat) :
    List Ev × Option Nat :=
  let dres := drainMsgs disc queued
  if dres.2 then
    (prePhase lines ++ rawSeg raw .disableRaw
       ++ Ev.writePayload first :: dres.1 ++ rawSeg raw .enableRaw,
     none)
  else
    (prePhase lines ++ rawSeg raw .disableRaw
       ++ Ev.writePayload first :: dres.1 ++ rawSeg raw .enableRaw
       ++ [Ev.moveToColumn 0, Ev.flush, Ev.callback (some cbRet), Ev.flush],
     some cbRet)

/-- A burst arriving at the background loop: the block-received first payload,
the additional payloads already queued behind it, and the line count the
render callback returns for this redraw. -/
structure Burst where
  first : List Nat
  queued : List (List Nat)
  cbRet : Nat

/-- The erase-and-write body shared by both burst outcomes. -/
def burstBody (lines : Nat) (raw : Bool) (first : List Nat)
    (qs : List (List Nat)) : List Ev :=
  prePhase lines ++ rawSeg raw .disableRaw
    ++ Ev.writePayload first :: qs.map Ev.writePayload
    ++ rawSeg raw .enableRaw

/-- `handle_logs` over a schedule of bursts separated by idle (Empty) periods,
with no teardown: threads the stored line count through the iterations and
collects each iteration's trace. -/
def runBursts (raw : Bool) (lines : Nat) :
    List Burst → List (List Ev) × Nat
  | [] => ([], lines)
  | b :: rest =>
    match handleBurst lines raw b.first (b.queued.map some) false b.cbRet with
    | (tr, none) => ([tr], lines)
    | (tr, some l1) =>
      let (trs, fin) := runBursts raw l1 rest
      (tr :: trs, fin)

/-! ## Teardown (`ThreadedHandler::drop`, src/threaded.rs) -/

/-- The background thread's remaining run once the dropping thread has
enqueued the sentinel: everything still in the channel is available at once,
so `recv` takes the head — a payload head starts one final burst whose drain
reaches the sentinel and reports `Closed`, making `handle_logs` return; a
sentinel head makes `recv` yield `None` and the loop exits directly. -/
def finishAfterClose (lines : Nat) (raw : Bool) :
    List (Option (List Nat)) → List Ev
  | [] => []
  | none :: _ => []
  | some b :: rest => (handleBurst lines raw b rest false 0).1

/-- A `ThreadedHandler` about to be dropped: the messages sent but not yet
consumed, the background thread's stored line count and raw-mode setting, and
the join handle (`some panicked`; `none` after the handle has been taken). -/
structure HandlerState where
  pending : List (Option (List Nat))
  lines : Nat
  raw : Bool
  thread : Option Bool

/-- What one `ThreadedHandler::drop` did: the handler state afterwards, the
events the background thread emitted before exiting (present exactly when a
join was performed — `join()` returns only once the loop has exited), and
whether the drop itself panicked (`join().expect(..)` re-raising a background
panic). -/
structure DropResult where
  state : HandlerState
  consumerTrace : Option (List Ev)
  panics : Bool

/-- `ThreadedHandler::drop`: `self.log_sender.close()` enqueues the sentinel,
then `self.join_handle.take()` joins the background thread if the handle is
still present, panicking if the thread panicked. -/
def dropHandler (h : HandlerState) : DropResult :=
  let q := h.pending ++ [none]
  match h.thread with
  | none => ⟨{ h with pending := q, thread := none }, none, false⟩
  | some panicked =>
    ⟨{ h with pending := [], thread := none },
     some (finishAfterClose h.lines h.raw q),
     panicked⟩

/-- The payloads queued strictly before the first close sentinel. -/
def payloadsBeforeSentinel : List (Option (List Nat)) → List (List Nat)
  | [] => []
  | none :: _ => []
  | some b :: rest => b :: payloadsBeforeSentinel rest

/-! ## Sequences of writes -/

/-- A sequence of failure-free unthreaded writes against one `LogWriter`:
each element is the payload and the line count its render callback returns.
Yields every write's trace and the final stored line count, starting from
`lines`. -/
def runWritesOk (raw : Bool) (lines : Nat) :
    List (List Nat × Nat) → List (List Ev) × Nat
  | [] => ([], lines)
  | (p, r) :: rest =>
    let out := unthreadedWrite lines raw p ⟨none, some r⟩
    let rec1 := runWritesOk raw out.newLines rest
    (out.trace :: rec1.1, rec1.2)

/-- The erase-pair counts the spec predicts for a sequence of writes: `d`
before the first write, then each write's callback return before the next. -/
def expectedCounts (d : Nat) : List Nat → List Nat
  | [] => []
  | r :: rs => d :: expectedCounts r rs

/-- The count the most recent render returned, `d` when none has run yet. -/
def lastRetD (d : Nat) : List Nat → Nat
  | [] => d
  | r :: rs => lastRetD r rs

/-- A trace with no raw-mode toggles. -/
def rawFree (tr : List Ev) : Prop :=
  Ev.disableRaw ∉ tr ∧ Ev.enableRaw ∉ tr

/-! ## Basic lemmas about the sink-operation machinery -/

theorem doOp_ok (o : Oracle) (e : Ev) (i : Nat) (tr : List Ev)
    (h : o.failAt ≠ some i) : doOp o e ⟨i, tr⟩ = .ok ⟨i + 1, tr ++ [e]⟩ := by
  simp [doOp, h]

theorem doOp_err (o : Oracle) (e : Ev) (i : Nat) (tr : List Ev)
    (h : o.failAt = some i) : doOp o e ⟨i, tr⟩ = .error tr := by
  simp [doOp, h]

theorem ite_emit (raw : Bool) (e : Ev) (s : WS) :
    (if raw then emit e s else s) = ⟨s.idx, s.trace ++ rawSeg raw e⟩ := by
  cases raw <;> simp [emit, rawSeg]

theorem erasePairs_zero : erasePairs 0 = [] := rfl

theorem erasePairs_succ (n : Nat) :
    erasePairs (n + 1) = Ev.clearLine :: Ev.moveUp 1 :: erasePairs n := by
  simp [erasePairs, List.replicate_succ]

theorem erasePairs_length (n : Nat) : (erasePairs n).length = 2 * n := by
  induction n with
  | zero => rfl
  | succ n ih => simp [erasePairs_succ, ih]; omega

theorem eraseLines_ok (o : Oracle) :
    ∀ (n i : Nat) (tr : List Ev),
      (∀ k, o.failAt = some k → k < i ∨ i + 2 * n ≤ k) →
      eraseLines o n ⟨i, tr⟩ = .ok ⟨i + 2 * n, tr ++ erasePairs n⟩ := by
  intro n
  induction n with
  | zero => intro i tr _; simp [eraseLines, erasePairs_zero]
  | succ n ih =>
    intro i tr h
    have h0 : o.failAt ≠ some i := by
      intro hc; rcases h i hc with hlt | hge <;> omega
    have h1 : o.failAt ≠ some (i + 1) := by
      intro hc; rcases h (i + 1) hc with hlt | hge <;> omega
    rw [eraseLines, doOp_ok o _ _ _ h0]
    dsimp only
    rw [doOp_ok o _ _ _ h1]
    dsimp only
    rw [ih (i + 1 + 1) _ (by intro k hk; rcases h k hk with hlt | hge <;> omega)]
    have : i + 1 + 1 + 2 * n = i + 2 * (n + 1) := by omega
    rw [this]
    simp [erasePairs_succ]

theorem eraseLines_err (o : Oracle) :
    ∀ (n i : Nat) (tr : List Ev) (k : Nat),
      o.failAt = some k → i ≤ k → k < i + 2 * n →
      eraseLines o n ⟨i, tr⟩ = .error (tr ++ (erasePairs n).take (k - i)) := by
  intro n
  induction n with
  | zero => intro i tr k _ h1 h2; omega
  | succ n ih =>
    intro i tr k hk h1 h2
    by_cases hki : k = i
    · subst hki
      rw [eraseLines, doOp_err o _ _ _ hk]
      simp
    · by_cases hki1 : k = i + 1
      · subst hki1
        rw [eraseLines,
          doOp_ok o _ _ _ (by rw [hk]; intro hc; injection hc with hc; omega)]
        dsimp only
        rw [doOp_err o _ _ _ hk]
        have : i + 1 - i = 1 := by omega
        simp [this, erasePairs_succ]
      · have hge : i + 1 + 1 ≤ k := by omega
        rw [eraseLines,
          doOp_ok o _ _ _ (by rw [hk]; intro hc; injection hc with hc; omega)]
        dsimp only
        rw [doOp_ok o _ _ _ (by rw [hk]; intro hc; injection hc with hc; omega)]
        dsimp only
        rw [ih (i + 1 + 1) _ k hk hge (by omega)]
        have hsub : k - i = (k - (i + 1 + 1)) + 2 := by omega
        rw [hsub]
        simp [erasePairs_succ, List.take_succ_cons]

theorem prePhase_length (lines : Nat) :
    (prePhase lines).length = 3 + 2 * lines := by
  simp [prePhase, erasePairs_length]; omega

theorem prePart_ok (o : Oracle) (lines : Nat)
    (h : ∀ k, o.failAt = some k → 3 + 2 * lines ≤ k) :
    prePart o lines = .ok ⟨3 + 2 * lines, prePhase lines⟩ := by
  have h0 : o.failAt ≠ some 0 := by intro hc; have := h 0 hc; omega
  have h1 : o.failAt ≠ some (0 + 1) := by intro hc; have := h _ hc; omega
  have h2 : o.failAt ≠ some (0 + 1 + 1 + 2 * lines) := by
    intro hc; have := h _ hc; omega
  rw [prePart, doOp_ok o _ _ _ h0]
  dsimp only
  rw [doOp_ok o _ _ _ h1]
  dsimp only
  rw [eraseLines_ok o lines (0 + 1 + 1) _
    (by intro k hk; have := h k hk; omega)]
  dsimp only
  rw [doOp_ok o _ _ _ h2]
  have : 0 + 1 + 1 + 2 * lines + 1 = 3 + 2 * lines := by omega
  rw [this]
  simp [prePhase]

theorem prePart_err (o : Oracle) (lines k : Nat)
    (hk : o.failAt = some k) (hlt : k < 3 + 2 * lines) :
    prePart o lines = .error ((prePhase lines).take k) := by
  by_cases h0 : k = 0
  · subst h0
    rw [prePart, doOp_err o _ _ _ hk]
    simp
  · by_cases h1 : k = 1
    · subst h1
      rw [prePart,
        doOp_ok o _ _ _ (by rw [hk]; intro hc; injection hc with hc; omega)]
      dsimp only
      rw [doOp_err o _ _ _ hk]
      simp [prePhase]
    · have hge2 : 2 ≤ k := by omega
      by_cases hmid : k < 2 + 2 * lines
      · rw [prePart,
          doOp_ok o _ _ _ (by rw [hk]; intro hc; injection hc with hc; omega)]
        dsimp only
        rw [doOp_ok o _ _ _ (by rw [hk]; intro hc; injection hc with hc; omega)]
        dsimp only
        rw [eraseLines_err o lines (0 + 1 + 1) _ k hk (by omega) (by omega)]
        have htk : (prePhase lines).take k
            = Ev.moveToColumn 0 :: Ev.resetColor ::
              (erasePairs lines ++ [Ev.clearLine]).take (k - 2) := by
          have : k = (k - 2) + 1 + 1 := by omega
          rw [this]
          simp [prePhase, List.take_succ_cons]
        rw [htk, List.take_append_of_le_length (by rw [erasePairs_length]; omega)]
        have : k - (0 + 1 + 1) = k - 2 := by omega
        rw [this]
        simp
      · have hkeq : k = 2 + 2 * lines := by omega
        rw [prePart,
          doOp_ok o _ _ _ (by rw [hk]; intro hc; injection hc with hc; omega)]
        dsimp only
        rw [doOp_ok o _ _ _ (by rw [hk]; intro hc; injection hc with hc; omega)]
        dsimp only
        rw [eraseLines_ok o lines (0 + 1 + 1) _
          (by intro k' hk'; right; rw [hk] at hk'; injection hk' with h; omega)]
        dsimp only
        rw [doOp_err o _ _ _ (by rw [hk, hkeq])]
        have htk : (prePhase lines).take k
            = Ev.moveToColumn 0 :: Ev.resetColor ::
              (erasePairs lines ++ [Ev.clearLine]).take (2 * lines) := by
          rw [hkeq]
          have : 2 + 2 * lines = (2 * lines) + 1 + 1 := by omega
          rw [this]
          simp [prePhase, List.take_succ_cons]
        rw [htk, List.take_append_of_le_length (by rw [erasePairs_length]),
          ← erasePairs_length lines, List.take_length]
        simp

/-! ## Characterization of `unthreadedWrite` by failure region -/

theorem uw_pre_err (lines : Nat) (raw : Bool) (payload : List Nat)
    (o : Oracle) (k : Nat) (hk : o.failAt = some k)
    (hlt : k < 3 + 2 * lines) :
    unthreadedWrite lines raw payload o
      = ⟨(prePhase lines).take k, .error (), lines⟩ := by
  rw [unthreadedWrite, prePart_err o lines k hk hlt]

theorem uw_payload_err (lines : Nat) (raw : Bool) (payload : List Nat)
    (o : Oracle) (hk : o.failAt = some (3 + 2 * lines)) :
    unthreadedWrite lines raw payload o
      = ⟨prePhase lines ++ rawSeg raw .disableRaw ++ rawSeg raw .enableRaw,
         .error (), lines⟩ := by
  rw [unthreadedWrite,
    prePart_ok o lines
      (by intro k hk'; rw [hk] at hk'; injection hk' with h; omega)]
  dsimp only
  rw [ite_emit]
  dsimp only
  rw [doOp_err o _ _ _ hk]
  cases raw <;> simp [rawSeg]

theorem uw_move_err (lines : Nat) (raw : Bool) (payload : List Nat)
    (o : Oracle) (hk : o.failAt = some (3 + 2 * lines + 1)) :
    unthreadedWrite lines raw payload o
      = ⟨prePhase lines ++ rawSeg raw .disableRaw ++ [Ev.writePayload payload]
           ++ rawSeg raw .enableRaw, .error (), lines⟩ := by
  rw [unthreadedWrite,
    prePart_ok o lines
      (by intro k hk'; rw [hk] at hk'; injection hk' with h; omega)]
  dsimp only
  rw [ite_emit]
  dsimp only
  rw [doOp_ok o _ _ _ (by rw [hk]; intro hc; injection hc with hc; omega)]
  dsimp only
  rw [ite_emit]
  dsimp only
  rw [doOp_err o _ _ _ hk]

theorem uw_flush1_err (lines : Nat) (raw : Bool) (payload : List Nat)
    (o : Oracle) (hk : o.failAt = some (3 + 2 * lines + 1 + 1)) :
    unthreadedWrite lines raw payload o
      = ⟨prePhase lines ++ rawSeg raw .disableRaw ++ [Ev.writePayload payload]
           ++ rawSeg raw .enableRaw ++ [Ev.moveToColumn 0],
         .error (), lines⟩ := by
  rw [unthreadedWrite,
    prePart_ok o lines
      (by intro k hk'; rw [hk] at hk'; injection hk' with h; omega)]
  dsimp only
  rw [ite_emit]
  dsimp only
  rw [doOp_ok o _ _ _ (by rw [hk]; intro hc; injection hc with hc; omega)]
  dsimp only
  rw [ite_emit]
  dsimp only
  rw [doOp_ok o _ _ _ (by rw [hk]; intro hc; injection hc with hc; omega)]
  dsimp only
  rw [doOp_err o _ _ _ hk]

theorem uw_cb_err (lines : Nat) (raw : Bool) (payload : List Nat)
    (o : Oracle)
    (hreach : ∀ k, o.failAt = some k → 3 + 2 * lines + 3 ≤ k)
    (hcb : o.cbRet = none) :
    unthreadedWrite lines raw payload o
      = ⟨prePhase lines ++ rawSeg raw .disableRaw ++ [Ev.writePayload payload]
           ++ rawSeg raw .enableRaw
           ++ [Ev.moveToColumn 0, Ev.flush, Ev.callback none],
         .error (), lines⟩ := by
  rw [unthreadedWrite,
    prePart_ok o lines (by intro k hk'; have := hreach k hk'; omega)]
  dsimp only
  rw [ite_emit]
  dsimp only
  rw [doOp_ok o _ _ _ (by intro hc; have := hreach _ hc; omega)]
  dsimp only
  rw [ite_emit]
  dsimp only
  rw [doOp_ok o _ _ _ (by intro hc; have := hreach _ hc; omega)]
  dsimp only
  rw [doOp_ok o _ _ _ (by intro hc; have := hreach _ hc; omega)]
  dsimp only
  rw [hcb]
  dsimp only [emit]
  cases raw <;> simp [rawSeg]

theorem uw_flush2_err (lines : Nat) (raw : Bool) (payload : List Nat)
    (o : Oracle) (r : Nat) (hcb : o.cbRet = some r)
    (hk : o.failAt = some (3 + 2 * lines + 1 + 1 + 1)) :
    unthreadedWrite lines raw payload o
      = ⟨prePhase lines ++ rawSeg raw .disableRaw ++ [Ev.writePayload payload]
           ++ rawSeg raw .enableRaw
           ++ [Ev.moveToColumn 0, Ev.flush, Ev.callback (some r)],
         .error (), r⟩ := by
  rw [unthreadedWrite,
    prePart_ok o lines
      (by intro k hk'; rw [hk] at hk'; injection hk' with h; omega)]
  dsimp only
  rw [ite_emit]
  dsimp only
  rw [doOp_ok o _ _ _ (by rw [hk]; intro hc; injection hc with hc; omega)]
  dsimp only
  rw [ite_emit]
  dsimp only
  rw [doOp_ok o _ _ _ (by rw [hk]; intro hc; injection hc with hc; omega)]
  dsimp only
  rw [doOp_ok o _ _ _ (by rw [hk]; intro hc; injection hc with hc; omega)]
  dsimp only
  rw [hcb]
  dsimp only [emit]
  rw [doOp_err o _ _ _ hk]
  cases raw <;> simp [rawSeg]

theorem uw_ok (lines : Nat) (raw : Bool) (payload : List Nat)
    (o : Oracle) (r : Nat) (hcb : o.cbRet = some r)
    (hreach : ∀ k, o.failAt = some k → 3 + 2 * lines + 4 ≤ k) :
    unthreadedWrite lines raw payload o
      = ⟨codeWriteTrace lines raw payload r, .ok payload.length, r⟩ := by
  rw [unthreadedWrite,
    prePart_ok o lines (by intro k hk'; have := hreach k hk'; omega)]
  dsimp only
  rw [ite_emit]
  dsimp only
  rw [doOp_ok o _ _ _ (by intro hc; have := hreach _ hc; omega)]
  dsimp only
  rw [ite_emit]
  dsimp only
  rw [doOp_ok o _ _ _ (by intro hc; have := hreach _ hc; omega)]
  dsimp only
  rw [doOp_ok o _ _ _ (by intro hc; have := hreach _ hc; omega)]
  dsimp only
  rw [hcb]
  dsimp only [emit]
  rw [doOp_ok o _ _ _ (by intro hc; have := hreach _ hc; omega)]
  cases raw <;> simp [codeWriteTrace, rawSeg]

/-! ## Membership and counting facts about the erase-phase trace -/

theorem mem_erasePairs {e : Ev} {n : Nat} (h : e ∈ erasePairs n) :
    e = .clearLine ∨ e = .moveUp 1 := by
  induction n with
  | zero => simp [erasePairs_zero] at h
  | succ n ih =>
    rw [erasePairs_succ, List.mem_cons, List.mem_cons] at h
    rcases h with h | h | h
    · exact Or.inl h
    · exact Or.inr h
    · exact ih h

theorem mem_prePhase {e : Ev} {lines : Nat} (h : e ∈ prePhase lines) :
    e = .moveToColumn 0 ∨ e = .resetColor ∨ e = .clearLine ∨ e = .moveUp 1 := by
  rw [prePhase, List.mem_cons, List.mem_cons] at h
  rcases h with h | h | h
  · exact Or.inl h
  · exact Or.inr (Or.inl h)
  · rcases List.mem_append.mp h with h | h
    · rcases mem_erasePairs h with h | h
      · exact Or.inr (Or.inr (Or.inl h))
      · exact Or.inr (Or.inr (Or.inr h))
    · simp at h
      exact Or.inr (Or.inr (Or.inl h))

theorem disableRaw_not_mem_prePhase (lines : Nat) :
    Ev.disableRaw ∉ prePhase lines := by
  intro h; rcases mem_prePhase h with h | h | h | h <;> simp at h

theorem enableRaw_not_mem_prePhase (lines : Nat) :
    Ev.enableRaw ∉ prePhase lines := by
  intro h; rcases mem_prePhase h with h | h | h | h <;> simp at h

theorem writePayload_not_mem_prePhase (b : List Nat) (lines : Nat) :
    Ev.writePayload b ∉ prePhase lines := by
  intro h; rcases mem_prePhase h with h | h | h | h <;> simp at h

theorem callback_not_mem_prePhase (r : Option Nat) (lines : Nat) :
    Ev.callback r ∉ prePhase lines := by
  intro h; rcases mem_prePhase h with h | h | h | h <;> simp at h

theorem flush_not_mem_prePhase (lines : Nat) :
    Ev.flush ∉ prePhase lines := by
  intro h; rcases mem_prePhase h with h | h | h | h <;> simp at h

theorem count_moveUp_erasePairs (n : Nat) :
    (erasePairs n).count (Ev.moveUp 1) = n := by
  induction n with
  | zero => rfl
  | succ n ih => simp [erasePairs_succ, List.count_cons, ih]

theorem count_moveUp_prePhase (lines : Nat) :
    (prePhase lines).count (Ev.moveUp 1) = lines := by
  simp [prePhase, List.count_cons, List.count_append,
    count_moveUp_erasePairs]

theorem mem_rawSeg {e e' : Ev} {raw : Bool} (h : e ∈ rawSeg raw e') :
    e = e' := by
  cases raw <;> simp [rawSeg] at h
  exact h

theorem rawFree_prePhase (lines : Nat) : rawFree (prePhase lines) :=
  ⟨disableRaw_not_mem_prePhase lines, enableRaw_not_mem_prePhase lines⟩

theorem rawFree_take {tr : List Ev} (k : Nat) (h : rawFree tr) :
    rawFree (tr.take k) :=
  ⟨fun hc => h.1 (List.take_subset k tr hc),
   fun hc => h.2 (List.take_subset k tr hc)⟩

/-! ## Facts about `renderOf` -/

theorem renderOf_append_cb_flush (l : List Ev) (r : Nat) :
    renderOf (l ++ [Ev.callback (some r), Ev.flush]) = some r := by
  simp [renderOf, List.findSome?]

theorem renderOf_append_cb (l : List Ev) (r : Nat) :
    renderOf (l ++ [Ev.callback (some r)]) = some r := by
  simp [renderOf, List.findSome?]

theorem renderOf_eq_none {tr : List Ev}
    (h : ∀ r : Nat, Ev.callback (some r) ∉ tr) : renderOf tr = none := by
  rw [renderOf, List.findSome?_eq_none_iff]
  intro x hx
  have hx' : x ∈ tr := List.mem_reverse.mp hx
  cases x with
  | callback ret =>
    cases ret with
    | none => rfl
    | some r => exact absurd hx' (h r)
  | moveToColumn n => rfl
  | resetColor => rfl
  | clearLine => rfl
  | moveUp n => rfl
  | disableRaw => rfl
  | enableRaw => rfl
  | writePayload b => rfl
  | flush => rfl

theorem rawFree_count {tr : List Ev} (h : rawFree tr) :
    tr.count Ev.disableRaw = 0 ∧ tr.count Ev.enableRaw = 0 :=
  ⟨List.count_eq_zero.mpr h.1, List.count_eq_zero.mpr h.2⟩

theorem count_raw_eq_of_decomp (pre w post : List Ev)
    (hpre : rawFree pre) (hw : rawFree w) (hpost : rawFree post) :
    (pre ++ Ev.disableRaw :: (w ++ Ev.enableRaw :: post)).count Ev.disableRaw
      = (pre ++ Ev.disableRaw :: (w ++ Ev.enableRaw :: post)).count
          Ev.enableRaw := by
  simp [List.count_append, List.count_cons, (rawFree_count hpre).1,
    (rawFree_count hpre).2, (rawFree_count hw).1, (rawFree_count hw).2,
    (rawFree_count hpost).1, (rawFree_count hpost).2]

/-! ## The complete outcome case analysis for `unthreadedWrite` -/

theorem unthreadedWrite_cases (lines : Nat) (raw : Bool) (payload : List Nat)
    (o : Oracle) :
    (∃ k, o.failAt = some k ∧ k < 3 + 2 * lines ∧
      unthreadedWrite lines raw payload o
        = ⟨(prePhase lines).take k, .error (), lines⟩) ∨
    (unthreadedWrite lines raw payload o
      = ⟨prePhase lines ++ rawSeg raw .disableRaw ++ rawSeg raw .enableRaw,
         .error (), lines⟩) ∨
    (unthreadedWrite lines raw payload o
      = ⟨prePhase lines ++ rawSeg raw .disableRaw ++ [Ev.writePayload payload]
           ++ rawSeg raw .enableRaw, .error (), lines⟩) ∨
    (unthreadedWrite lines raw payload o
      = ⟨prePhase lines ++ rawSeg raw .disableRaw ++ [Ev.writePayload payload]
           ++ rawSeg raw .enableRaw ++ [Ev.moveToColumn 0],
         .error (), lines⟩) ∨
    (unthreadedWrite lines raw payload o
      = ⟨prePhase lines ++ rawSeg raw .disableRaw ++ [Ev.writePayload payload]
           ++ rawSeg raw .enableRaw
           ++ [Ev.moveToColumn 0, Ev.flush, Ev.callback none],
         .error (), lines⟩) ∨
    (∃ r, unthreadedWrite lines raw payload o
      = ⟨prePhase lines ++ rawSeg raw .disableRaw ++ [Ev.writePayload payload]
           ++ rawSeg raw .enableRaw
           ++ [Ev.moveToColumn 0, Ev.flush, Ev.callback (some r)],
         .error (), r⟩) ∨
    (∃ r, unthreadedWrite lines raw payload o
      = ⟨codeWriteTrace lines raw payload r, .ok payload.length, r⟩) := by
  cases ho : o.failAt with
  | none =>
    cases hcb : o.cbRet with
    | none =>
      refine Or.inr (Or.inr (Or.inr (Or.inr (Or.inl ?_))))
      exact uw_cb_err lines raw payload o
        (by intro k hk; rw [ho] at hk; cases hk) hcb
    | some r =>
      refine Or.inr (Or.inr (Or.inr (Or.inr (Or.inr (Or.inr ⟨r, ?_⟩)))))
      exact uw_ok lines raw payload o r hcb
        (by intro k hk; rw [ho] at hk; cases hk)
  | some k =>
    by_cases h1 : k < 3 + 2 * lines
    · exact Or.inl ⟨k, rfl, h1, uw_pre_err lines raw payload o k ho h1⟩
    · by_cases h2 : k = 3 + 2 * lines
      · subst h2
        exact Or.inr (Or.inl (uw_payload_err lines raw payload o ho))
      · by_cases h3 : k = 3 + 2 * lines + 1
        · subst h3
          exact Or.inr (Or.inr (Or.inl (uw_move_err lines raw payload o ho)))
        · by_cases h4 : k = 3 + 2 * lines + 1 + 1
          · subst h4
            exact Or.inr (Or.inr (Or.inr (Or.inl
              (uw_flush1_err lines raw payload o ho))))
          · by_cases h5 : k = 3 + 2 * lines + 1 + 1 + 1
            · subst h5
              cases hcb : o.cbRet with
              | none =>
                refine Or.inr (Or.inr (Or.inr (Or.inr (Or.inl ?_))))
                exact uw_cb_err lines raw payload o
                  (by intro k' hk'; rw [ho] at hk';
                      injection hk' with h; omega) hcb
              | some r =>
                refine Or.inr (Or.inr (Or.inr (Or.inr (Or.inr
                  (Or.inl ⟨r, ?_⟩)))))
                exact uw_flush2_err lines raw payload o r hcb ho
            · have h6 : 3 + 2 * lines + 4 ≤ k := by omega
              cases hcb : o.cbRet with
              | none =>
                refine Or.inr (Or.inr (Or.inr (Or.inr (Or.inl ?_))))
                exact uw_cb_err lines raw payload o
                  (by intro k' hk'; rw [ho] at hk';
                      injection hk' with h; omega) hcb
              | some r =>
                refine Or.inr (Or.inr (Or.inr (Or.inr (Or.inr
                  (Or.inr ⟨r, ?_⟩)))))
                exact uw_ok lines raw payload o r hcb
                  (by intro k' hk'; rw [ho] at hk';
                      injection hk' with h; omega)

/-! ## Claim C2 -/

/-- Claim C2 as stated is false: the claim's exact operation sequence omits
the flush that `execute!(output, MoveToColumn(0))` issues between the
post-payload cursor move and the render callback.  Concretely, with stored
line count 0, no raw mode, payload `[65]` and a callback returning 0, the
operation sequence the code emits differs from the sequence the claim
lists. -/
theorem write_sequence_exact_counterexample :
    (unthreadedWrite 0 false [65] ⟨none, some 0⟩).trace
      ≠ specWriteTrace 0 false [65] 0 := by decide

/-- Claim C2, amended: a failure-free `LogWriter::write` with stored line
count `lines` emits exactly, in order: move-to-column-0 and reset-attributes;
`lines` clear-line + move-up-one pairs; one further clear-line; (if raw mode
assumed) disable raw mode; the payload verbatim; (if raw mode assumed) enable
raw mode; move-to-column-0; a flush (issued by the `execute!` that performs
the cursor move); the render callback; a flush — and returns the payload
length and stores the callback's returned count as the new line count. -/
theorem write_sequence_exact_amended (lines : Nat) (raw : Bool)
    (payload : List Nat) (ret : Nat) :
    (unthreadedWrite lines raw payload ⟨none, some ret⟩).trace
        = codeWriteTrace lines raw payload ret ∧
    (unthreadedWrite lines raw payload ⟨none, some ret⟩).result
        = .ok payload.length ∧
    (unthreadedWrite lines raw payload ⟨none, some ret⟩).newLines = ret := by
  have h := uw_ok lines raw payload ⟨none, some ret⟩ ret rfl
    (by intro k hk; cases hk)
  rw [h]
  exact ⟨rfl, rfl, rfl⟩

/-! ## Claim C5 -/

/-- Claim C5 as stated is false: a write that fails during the erase phase —
before the `RawModeGuard` is constructed — issues no raw-mode toggles at all,
so it is not the case that every write with `assume_raw_mode = true` issues
exactly one disable/enable pair.  Concretely, with the very first sink
operation failing, the trace is empty. -/
theorem raw_mode_pair_counterexample :
    (unthreadedWrite 0 true [65] ⟨some 0, some 0⟩).trace.count Ev.disableRaw
        = 0 ∧
    (unthreadedWrite 0 true [65] ⟨some 0, some 0⟩).trace = [] := by decide

/-- Claim C5, amended: with `assume_raw_mode = true`, every write emits
equally many disables and enables (raw mode is never left disabled), and
either the trace decomposes as a single disable … enable bracket — with the
payload write (if it happened at all) strictly inside the bracket, no other
raw toggles anywhere, and the render callback never inside the bracket or
before it — or the write failed during the erase phase, before the guard was
constructed, and no raw toggle and no payload write occurred at all. -/
theorem raw_mode_pairing_amended (lines : Nat) (payload : List Nat)
    (o : Oracle) :
    ((unthreadedWrite lines true payload o).trace.count Ev.disableRaw
        = (unthreadedWrite lines true payload o).trace.count Ev.enableRaw) ∧
    ((∃ pre w post,
        (unthreadedWrite lines true payload o).trace
            = pre ++ Ev.disableRaw :: (w ++ Ev.enableRaw :: post) ∧
        rawFree pre ∧ rawFree post ∧
        (w = [] ∨ w = [Ev.writePayload payload]) ∧
        (∀ r, Ev.callback r ∉ pre ++ w)) ∨
      (rawFree (unthreadedWrite lines true payload o).trace ∧
       (unthreadedWrite lines true payload o).result = .error () ∧
       (∀ b : List Nat,
         Ev.writePayload b ∉ (unthreadedWrite lines true payload o).trace))) := by
  rcases unthreadedWrite_cases lines true payload o with
    ⟨k, hk, hlt, heq⟩ | heq | heq | heq | heq | ⟨r, heq⟩ | ⟨r, heq⟩
  · -- erase-phase failure: no toggles were issued
    have hfree : rawFree ((prePhase lines).take k) :=
      rawFree_take k (rawFree_prePhase lines)
    rw [heq]
    dsimp only
    refine ⟨?_, Or.inr ⟨hfree, rfl, ?_⟩⟩
    · rw [(rawFree_count hfree).1, (rawFree_count hfree).2]
    · intro b hb
      exact writePayload_not_mem_prePhase b lines (List.take_subset _ _ hb)
  · -- payload write failed inside the bracket
    have htr : prePhase lines ++ rawSeg true .disableRaw
          ++ rawSeg true .enableRaw
        = prePhase lines
            ++ Ev.disableRaw :: (([] : List Ev) ++ Ev.enableRaw :: []) := by
      simp [rawSeg]
    rw [heq]
    dsimp only
    rw [htr]
    refine ⟨count_raw_eq_of_decomp _ _ _ (rawFree_prePhase lines)
      (by simp [rawFree]) (by simp [rawFree]), Or.inl
      ⟨prePhase lines, [], [], rfl, rawFree_prePhase lines,
        by simp [rawFree], Or.inl rfl, ?_⟩⟩
    intro r hr
    simp at hr
    exact callback_not_mem_prePhase r lines hr
  · -- post-payload move failed
    have htr : prePhase lines ++ rawSeg true .disableRaw
          ++ [Ev.writePayload payload] ++ rawSeg true .enableRaw
        = prePhase lines ++ Ev.disableRaw ::
            ([Ev.writePayload payload] ++ Ev.enableRaw :: []) := by
      simp [rawSeg]
    rw [heq]
    dsimp only
    rw [htr]
    refine ⟨count_raw_eq_of_decomp _ _ _ (rawFree_prePhase lines)
      (by simp [rawFree]) (by simp [rawFree]), Or.inl
      ⟨prePhase lines, [Ev.writePayload payload], [], rfl,
        rawFree_prePhase lines, by simp [rawFree], Or.inr rfl, ?_⟩⟩
    intro r hr
    simp at hr
    exact callback_not_mem_prePhase r lines hr
  · -- execute-flush failed
    have htr : prePhase lines ++ rawSeg true .disableRaw
          ++ [Ev.writePayload payload] ++ rawSeg true .enableRaw
          ++ [Ev.moveToColumn 0]
        = prePhase lines ++ Ev.disableRaw ::
            ([Ev.writePayload payload]
              ++ Ev.enableRaw :: [Ev.moveToColumn 0]) := by
      simp [rawSeg]
    rw [heq]
    dsimp only
    rw [htr]
    refine ⟨count_raw_eq_of_decomp _ _ _ (rawFree_prePhase lines)
      (by simp [rawFree]) (by simp [rawFree]), Or.inl
      ⟨prePhase lines, [Ev.writePayload payload], [Ev.moveToColumn 0], rfl,
        rawFree_prePhase lines, by simp [rawFree], Or.inr rfl, ?_⟩⟩
    intro r hr
    simp at hr
    exact callback_not_mem_prePhase r lines hr
  · -- render callback failed (after the guard was released)
    have htr : prePhase lines ++ rawSeg true .disableRaw
          ++ [Ev.writePayload payload] ++ rawSeg true .enableRaw
          ++ [Ev.moveToColumn 0, Ev.flush, Ev.callback none]
        = prePhase lines ++ Ev.disableRaw ::
            ([Ev.writePayload payload] ++ Ev.enableRaw ::
              [Ev.moveToColumn 0, Ev.flush, Ev.callback none]) := by
      simp [rawSeg]
    rw [heq]
    dsimp only
    rw [htr]
    refine ⟨count_raw_eq_of_decomp _ _ _ (rawFree_prePhase lines)
      (by simp [rawFree]) (by simp [rawFree]), Or.inl
      ⟨prePhase lines, [Ev.writePayload payload],
        [Ev.moveToColumn 0, Ev.flush, Ev.callback none], rfl,
        rawFree_prePhase lines, by simp [rawFree], Or.inr rfl, ?_⟩⟩
    intro r hr
    simp at hr
    exact callback_not_mem_prePhase r lines hr
  · -- final flush failed, after the callback succeeded
    have htr : prePhase lines ++ rawSeg true .disableRaw
          ++ [Ev.writePayload payload] ++ rawSeg true .enableRaw
          ++ [Ev.moveToColumn 0, Ev.flush, Ev.callback (some r)]
        = prePhase lines ++ Ev.disableRaw ::
            ([Ev.writePayload payload] ++ Ev.enableRaw ::
              [Ev.moveToColumn 0, Ev.flush, Ev.callback (some r)]) := by
      simp [rawSeg]
    rw [heq]
    dsimp only
    rw [htr]
    refine ⟨count_raw_eq_of_decomp _ _ _ (rawFree_prePhase lines)
      (by simp [rawFree]) (by simp [rawFree]), Or.inl
      ⟨prePhase lines, [Ev.writePayload payload],
        [Ev.moveToColumn 0, Ev.flush, Ev.callback (some r)], rfl,
        rawFree_prePhase lines, by simp [rawFree], Or.inr rfl, ?_⟩⟩
    intro r' hr
    simp at hr
    exact callback_not_mem_prePhase r' lines hr
  · -- fully successful write
    have htr : codeWriteTrace lines true payload r
        = prePhase lines ++ Ev.disableRaw ::
            ([Ev.writePayload payload] ++ Ev.enableRaw ::
              [Ev.moveToColumn 0, Ev.flush, Ev.callback (some r),
                Ev.flush]) := by
      simp [codeWriteTrace, rawSeg]
    rw [heq]
    dsimp only
    rw [htr]
    refine ⟨count_raw_eq_of_decomp _ _ _ (rawFree_prePhase lines)
      (by simp [rawFree]) (by simp [rawFree]), Or.inl
      ⟨prePhase lines, [Ev.writePayload payload],
        [Ev.moveToColumn 0, Ev.flush, Ev.callback (some r), Ev.flush], rfl,
        rawFree_prePhase lines, by simp [rawFree], Or.inr rfl, ?_⟩⟩
    intro r' hr
    simp at hr
    exact callback_not_mem_prePhase r' lines hr

/-! ## Per-write line-count tracking (unthreaded engine) -/

theorem not_mem_rawSeg {x e : Ev} (raw : Bool) (h : x ≠ e) :
    x ∉ rawSeg raw e := by
  cases raw <;> simp [rawSeg, h]

theorem count_moveUp_rawSeg (raw : Bool) (e : Ev) (h : e ≠ Ev.moveUp 1) :
    (rawSeg raw e).count (Ev.moveUp 1) = 0 := by
  cases raw <;> simp [rawSeg, List.count_cons, h]

/-- Whenever a `LogWriter::write` call actually wrote its payload, the erase
phase before it emitted exactly `lines` move-up operations — one per
clear-line/move-up pair. -/
theorem uw_erase_count (lines : Nat) (raw : Bool) (payload : List Nat)
    (o : Oracle)
    (hmem : Ev.writePayload payload ∈ (unthreadedWrite lines raw payload o).trace) :
    (unthreadedWrite lines raw payload o).trace.count (Ev.moveUp 1)
      = lines := by
  rcases unthreadedWrite_cases lines raw payload o with
    ⟨k, hk, hlt, heq⟩ | heq | heq | heq | heq | ⟨r, heq⟩ | ⟨r, heq⟩ <;>
    rw [heq] at hmem ⊢ <;> dsimp only at hmem ⊢
  · exact absurd (List.take_subset _ _ hmem)
      (writePayload_not_mem_prePhase payload lines)
  all_goals
    simp [codeWriteTrace, List.count_append, List.count_cons,
      count_moveUp_prePhase, count_moveUp_rawSeg]

/-- After every `LogWriter::write` call — successful or not — the stored line
count equals the value the most recent successful render-callback invocation
in the call's trace returned, and is unchanged when the trace contains
none. -/
theorem uw_render_tracking (lines : Nat) (raw : Bool) (payload : List Nat)
    (o : Oracle) :
    (∃ r, renderOf (unthreadedWrite lines raw payload o).trace = some r ∧
        (unthreadedWrite lines raw payload o).newLines = r) ∨
    (renderOf (unthreadedWrite lines raw payload o).trace = none ∧
        (unthreadedWrite lines raw payload o).newLines = lines) := by
  rcases unthreadedWrite_cases lines raw payload o with
    ⟨k, hk, hlt, heq⟩ | heq | heq | heq | heq | ⟨r, heq⟩ | ⟨r, heq⟩ <;>
    rw [heq] <;> dsimp only
  · refine Or.inr ⟨renderOf_eq_none ?_, rfl⟩
    intro r hr
    exact callback_not_mem_prePhase (some r) lines (List.take_subset _ _ hr)
  · refine Or.inr ⟨renderOf_eq_none ?_, rfl⟩
    intro r
    simp [List.mem_append, callback_not_mem_prePhase, not_mem_rawSeg]
  · refine Or.inr ⟨renderOf_eq_none ?_, rfl⟩
    intro r
    simp [List.mem_append, callback_not_mem_prePhase, not_mem_rawSeg]
  · refine Or.inr ⟨renderOf_eq_none ?_, rfl⟩
    intro r
    simp [List.mem_append, callback_not_mem_prePhase, not_mem_rawSeg]
  · refine Or.inr ⟨renderOf_eq_none ?_, rfl⟩
    intro r
    simp [List.mem_append, callback_not_mem_prePhase, not_mem_rawSeg]
  · refine Or.inl ⟨r, ?_, rfl⟩
    have hsh : prePhase lines ++ rawSeg raw .disableRaw
          ++ [Ev.writePayload payload] ++ rawSeg raw .enableRaw
          ++ [Ev.moveToColumn 0, Ev.flush, Ev.callback (some r)]
        = (prePhase lines ++ rawSeg raw .disableRaw
            ++ [Ev.writePayload payload] ++ rawSeg raw .enableRaw
            ++ [Ev.moveToColumn 0, Ev.flush]) ++ [Ev.callback (some r)] := by
      simp
    rw [hsh, renderOf_append_cb]
  · refine Or.inl ⟨r, ?_, rfl⟩
    have hsh : codeWriteTrace lines raw payload r
        = (prePhase lines ++ rawSeg raw .disableRaw
            ++ [Ev.writePayload payload] ++ rawSeg raw .enableRaw
            ++ [Ev.moveToColumn 0, Ev.flush])
          ++ [Ev.callback (some r), Ev.flush] := by
      simp [codeWriteTrace]
    rw [hsh, renderOf_append_cb_flush]

/-! ## The threaded burst lemmas -/

theorem drainMsgs_entries (qs : List (List Nat)) :
    drainMsgs false (qs.map some) = (qs.map Ev.writePayload, false) := by
  induction qs with
  | nil => rfl
  | cons q qs ih => simp [drainMsgs, ih]

theorem drainMsgs_closed (disc : Bool) (qs : List (List Nat))
    (junk : List (Option (List Nat))) :
    drainMsgs disc (qs.map some ++ none :: junk)
      = (qs.map Ev.writePayload, true) := by
  induction qs with
  | nil => rfl
  | cons q qs ih => simp [drainMsgs, ih]

theorem handleBurst_ok (lines : Nat) (raw : Bool) (first : List Nat)
    (qs : List (List Nat)) (ret : Nat) :
    handleBurst lines raw first (qs.map some) false ret
      = (prePhase lines ++ rawSeg raw .disableRaw
           ++ Ev.writePayload first :: qs.map Ev.writePayload
           ++ rawSeg raw .enableRaw
           ++ [Ev.moveToColumn 0, Ev.flush, Ev.callback (some ret), Ev.flush],
         some ret) := by
  simp [handleBurst, drainMsgs_entries]

theorem handleBurst_closed (lines : Nat) (raw : Bool) (first : List Nat)
    (qs : List (List Nat)) (junk : List (Option (List Nat))) (disc : Bool)
    (ret : Nat) :
    handleBurst lines raw first (qs.map some ++ none :: junk) disc ret
      = (prePhase lines ++ rawSeg raw .disableRaw
           ++ Ev.writePayload first :: qs.map Ev.writePayload
           ++ rawSeg raw .enableRaw, none) := by
  simp [handleBurst, drainMsgs_closed]

/-! ## Counting and projection helpers for burst traces -/

theorem cbCount_append (l1 l2 : List Ev) :
    cbCount (l1 ++ l2) = cbCount l1 + cbCount l2 := by
  simp [cbCount, List.filter_append]

theorem writesOf_append (l1 l2 : List Ev) :
    writesOf (l1 ++ l2) = writesOf l1 ++ writesOf l2 := by
  simp [writesOf, List.filterMap_append]

theorem cbCount_eq_zero {tr : List Ev}
    (h : ∀ r : Option Nat, Ev.callback r ∉ tr) : cbCount tr = 0 := by
  induction tr with
  | nil => rfl
  | cons e rest ih =>
    have hrest : ∀ r : Option Nat, Ev.callback r ∉ rest := by
      intro r hr; exact h r (List.mem_cons_of_mem e hr)
    have he : isCallback e = false := by
      cases e <;> first
        | rfl
        | exact absurd (List.mem_cons_self _ _) (h _)
    simp [cbCount, List.filter_cons, he] at ih ⊢
    exact ih hrest

theorem writesOf_cons_payload (b : List Nat) (tr : List Ev) :
    writesOf (Ev.writePayload b :: tr) = b :: writesOf tr := by
  simp [writesOf, List.filterMap_cons]

theorem writesOf_eq_nil {tr : List Ev}
    (h : ∀ b : List Nat, Ev.writePayload b ∉ tr) : writesOf tr = [] := by
  induction tr with
  | nil => rfl
  | cons e rest ih =>
    have hrest : ∀ b : List Nat, Ev.writePayload b ∉ rest := by
      intro b hb; exact h b (List.mem_cons_of_mem e hb)
    have he : (fun e : Ev =>
        match e with
        | .writePayload b => some b
        | _ => none) e = none := by
      cases e <;> first
        | rfl
        | exact absurd (List.mem_cons_self _ _) (h _)
    simp [writesOf, List.filterMap_cons, he] at ih ⊢
    exact ih hrest

theorem writesOf_map (qs : List (List Nat)) :
    writesOf (qs.map Ev.writePayload) = qs := by
  induction qs with
  | nil => rfl
  | cons q qs ih => simp [writesOf, List.filterMap_cons] at ih ⊢; exact ih

theorem count_moveUp_map_writes (qs : List (List Nat)) :
    (qs.map Ev.writePayload).count (Ev.moveUp 1) = 0 := by
  refine List.count_eq_zero.mpr ?_
  simp

theorem count_moveUp_codeWriteTrace (lines : Nat) (raw : Bool)
    (payload : List Nat) (ret : Nat) :
    (codeWriteTrace lines raw payload ret).count (Ev.moveUp 1) = lines := by
  simp [codeWriteTrace, List.count_append, count_moveUp_prePhase,
    count_moveUp_rawSeg, List.count_cons]

theorem writesOf_burstBody (lines : Nat) (raw : Bool) (first : List Nat)
    (qs : List (List Nat)) :
    writesOf (burstBody lines raw first qs) = first :: qs := by
  have h1 : writesOf (prePhase lines) = [] := by
    refine writesOf_eq_nil ?_
    intro b
    exact writePayload_not_mem_prePhase b lines
  have h2 : writesOf (rawSeg raw .disableRaw) = [] := by
    refine writesOf_eq_nil ?_
    intro b
    exact not_mem_rawSeg raw (by simp)
  have h3 : writesOf (rawSeg raw .enableRaw) = [] := by
    refine writesOf_eq_nil ?_
    intro b
    exact not_mem_rawSeg raw (by simp)
  rw [burstBody, writesOf_append, writesOf_append, writesOf_append,
    writesOf_cons_payload, writesOf_map, h1, h2, h3]
  simp

theorem cbCount_burstBody (lines : Nat) (raw : Bool) (first : List Nat)
    (qs : List (List Nat)) :
    cbCount (burstBody lines raw first qs) = 0 := by
  refine cbCount_eq_zero ?_
  intro r
  simp [burstBody, List.mem_append, callback_not_mem_prePhase, not_mem_rawSeg]

theorem count_moveUp_burstBody (lines : Nat) (raw : Bool) (first : List Nat)
    (qs : List (List Nat)) :
    (burstBody lines raw first qs).count (Ev.moveUp 1) = lines := by
  simp [burstBody, List.count_append, count_moveUp_prePhase,
    count_moveUp_rawSeg, List.count_cons, count_moveUp_map_writes]

theorem handleBurst_ok_body (lines : Nat) (raw : Bool) (first : List Nat)
    (qs : List (List Nat)) (ret : Nat) :
    handleBurst lines raw first (qs.map some) false ret
      = (burstBody lines raw first qs
           ++ [Ev.moveToColumn 0, Ev.flush, Ev.callback (some ret), Ev.flush],
         some ret) := by
  rw [handleBurst_ok, burstBody]

theorem handleBurst_closed_body (lines : Nat) (raw : Bool) (first : List Nat)
    (qs : List (List Nat)) (junk : List (Option (List Nat))) (disc : Bool)
    (ret : Nat) :
    handleBurst lines raw first (qs.map some ++ none :: junk) disc ret
      = (burstBody lines raw first qs, none) := by
  rw [handleBurst_closed, burstBody]

/-! ## Sequence runners -/

theorem runWritesOk_spec (raw : Bool) :
    ∀ (ws : List (List Nat × Nat)) (l : Nat),
      ((runWritesOk raw l ws).1.map fun tr => tr.count (Ev.moveUp 1))
          = expectedCounts l (ws.map Prod.snd) ∧
      (runWritesOk raw l ws).2 = lastRetD l (ws.map Prod.snd) := by
  intro ws
  induction ws with
  | nil => intro l; exact ⟨rfl, rfl⟩
  | cons pr rest ih =>
    intro l
    obtain ⟨p, r⟩ := pr
    have h := uw_ok l raw p ⟨none, some r⟩ r rfl (by intro k hk; cases hk)
    simp only [runWritesOk, h]
    constructor
    · simp [expectedCounts, count_moveUp_codeWriteTrace, (ih r).1]
    · simp [lastRetD, (ih r).2]

theorem runBursts_spec (raw : Bool) :
    ∀ (bs : List Burst) (l : Nat),
      ((runBursts raw l bs).1.map fun tr => tr.count (Ev.moveUp 1))
          = expectedCounts l (bs.map Burst.cbRet) ∧
      (runBursts raw l bs).2 = lastRetD l (bs.map Burst.cbRet) := by
  intro bs
  induction bs with
  | nil => intro l; exact ⟨rfl, rfl⟩
  | cons b rest ih =>
    intro l
    rw [runBursts, handleBurst_ok_body]
    dsimp only
    have hc : (burstBody l raw b.first b.queued
        ++ [Ev.moveToColumn 0, Ev.flush, Ev.callback (some b.cbRet),
            Ev.flush]).count (Ev.moveUp 1) = l := by
      rw [List.count_append, count_moveUp_burstBody]
      simp [List.count_cons]
    constructor
    · simp [expectedCounts, hc, (ih b.cbRet).1]
    · simp [lastRetD, (ih b.cbRet).2]

/-! ## Claim C1 -/

/-- Claim C1: the line-count invariant holds in both engines.  (a) For any
single `LogWriter::write` call, however it fails, if the payload was written
then the erase phase issued exactly `lines` clear+move-up pairs (counted by
their move-up halves), and afterwards the stored line count equals the value
the most recent successful render in the trace returned (unchanged when there
is none).  (b) For any failure-free sequence of unthreaded writes starting
from line count 0, the per-write erase-pair counts are exactly 0 followed by
each write's callback return, and the final stored count is the most recent
callback's return (0 for the empty sequence).  (c) The same holds per burst
for the threaded engine's background loop. -/
theorem line_count_invariant :
    (∀ (lines : Nat) (raw : Bool) (payload : List Nat) (o : Oracle),
      (Ev.writePayload payload ∈ (unthreadedWrite lines raw payload o).trace →
        (unthreadedWrite lines raw payload o).trace.count (Ev.moveUp 1)
          = lines) ∧
      ((∃ r, renderOf (unthreadedWrite lines raw payload o).trace = some r ∧
          (unthreadedWrite lines raw payload o).newLines = r) ∨
        (renderOf (unthreadedWrite lines raw payload o).trace = none ∧
          (unthreadedWrite lines raw payload o).newLines = lines))) ∧
    (∀ (raw : Bool) (ws : List (List Nat × Nat)),
      ((runWritesOk raw 0 ws).1.map fun tr => tr.count (Ev.moveUp 1))
          = expectedCounts 0 (ws.map Prod.snd) ∧
      (runWritesOk raw 0 ws).2 = lastRetD 0 (ws.map Prod.snd)) ∧
    (∀ (raw : Bool) (bs : List Burst),
      ((runBursts raw 0 bs).1.map fun tr => tr.count (Ev.moveUp 1))
          = expectedCounts 0 (bs.map Burst.cbRet) ∧
      (runBursts raw 0 bs).2 = lastRetD 0 (bs.map Burst.cbRet)) := by
  refine ⟨?_, ?_, ?_⟩
  · intro lines raw payload o
    exact ⟨uw_erase_count lines raw payload o,
      uw_render_tracking lines raw payload o⟩
  · intro raw ws
    exact runWritesOk_spec raw ws 0
  · intro raw bs
    exact runBursts_spec raw bs 0

/-- Witness for C1 at a concrete input: a write whose previous render
returned 2 erases exactly 2 lines before its payload. -/
theorem line_count_invariant_witness :
    (unthreadedWrite 2 false [65] ⟨none, some 3⟩).trace.count (Ev.moveUp 1)
      = 2 :=
  (line_count_invariant.1 2 false [65] ⟨none, some 3⟩).1 (by decide)

/-! ## Claim C3 -/

/-- Claim C3: a burst of `1 + entries.length` payloads available to the
background loop before it drains any of them is processed in one loop
iteration: the first payload is block-received and written, every queued
payload is drained and written in order, and only then is the render callback
invoked — exactly once — followed by the final flush; the callback's return
becomes the new stored line count. -/
theorem burst_coalescing (lines : Nat) (raw : Bool) (first : List Nat)
    (entries : List (List Nat)) (ret : Nat) :
    handleBurst lines raw first (entries.map some) false ret
      = (burstBody lines raw first entries
           ++ [Ev.moveToColumn 0, Ev.flush, Ev.callback (some ret), Ev.flush],
         some ret) ∧
    cbCount (handleBurst lines raw first (entries.map some) false ret).1
        = 1 ∧
    writesOf (handleBurst lines raw first (entries.map some) false ret).1
        = first :: entries ∧
    cbCount (burstBody lines raw first entries) = 0 ∧
    writesOf (burstBody lines raw first entries) = first :: entries := by
  have h := handleBurst_ok_body lines raw first entries ret
  refine ⟨h, ?_, ?_, cbCount_burstBody lines raw first entries,
    writesOf_burstBody lines raw first entries⟩
  · rw [h]
    dsimp only
    rw [cbCount_append, cbCount_burstBody]
    rfl
  · rw [h]
    dsimp only
    rw [writesOf_append, writesOf_burstBody]
    have : writesOf [Ev.moveToColumn 0, Ev.flush, Ev.callback (some ret),
        Ev.flush] = [] := rfl
    rw [this, List.append_nil]

/-! ## Claim C10 -/

/-- Claim C10: when the drain loop's non-blocking receive reports the channel
closed (a sentinel, or disconnection, behind the already-drained entries),
`handle_logs` returns at once: the burst's written payloads are followed by no
render-callback invocation and no flush, and no new line count is stored (the
iteration yields `none` instead of a callback return, ending the loop). -/
theorem drain_closed_no_render (lines : Nat) (raw : Bool) (first : List Nat)
    (entries : List (List Nat)) (junk : List (Option (List Nat)))
    (disc : Bool) (ret : Nat) :
    handleBurst lines raw first (entries.map some ++ none :: junk) disc ret
      = (burstBody lines raw first entries, none) ∧
    cbCount (handleBurst lines raw first (entries.map some ++ none :: junk)
        disc ret).1 = 0 ∧
    Ev.flush ∉ (handleBurst lines raw first (entries.map some ++ none :: junk)
        disc ret).1 ∧
    writesOf (handleBurst lines raw first (entries.map some ++ none :: junk)
        disc ret).1 = first :: entries := by
  have h := handleBurst_closed_body lines raw first entries junk disc ret
  refine ⟨h, ?_, ?_, ?_⟩
  · rw [h]
    exact cbCount_burstBody lines raw first entries
  · rw [h]
    dsimp only
    simp [burstBody, List.mem_append, flush_not_mem_prePhase, not_mem_rawSeg]
  · rw [h]
    exact writesOf_burstBody lines raw first entries

/-! ## Bridge lemmas -/

theorem poolReturn_ne_nil (pool : List (List Nat)) (b : List Nat) :
    poolReturn pool b ≠ [] := by
  rw [poolReturn]
  split
  · simp
  · intro hc
    subst hc
    simp at *

theorem consumerRunAux_double (alive : Bool) :
    ∀ (q : List (Option (List Nat))) (pool out : List (List Nat)) (ac : Nat),
      consumerRunAux alive (q ++ [none, none]) pool out ac
        = consumerRunAux alive (q ++ [none]) pool out ac := by
  intro q
  induction q with
  | nil => intro pool out ac; rfl
  | cons x q ih =>
    intro pool out ac
    cases x with
    | none => rfl
    | some b => simp [consumerRunAux, ih]

theorem cycle_pool_nil (o : List (List Nat)) (n : Nat) (buf : List Nat) :
    sendDrainCycle ⟨[], true, [], o, n⟩ buf
      = (some buf, ⟨[], true, [buf], o, n + 1⟩) := rfl

theorem cycle_pool_cons (b : List Nat) (pb o : List (List Nat)) (n : Nat)
    (buf : List Nat) :
    sendDrainCycle ⟨[], true, b :: pb, o, n⟩ buf
      = (some buf, ⟨[], true, poolReturn pb buf, o, n⟩) := rfl

theorem runCycles_aux (bufs : List (List Nat)) :
    ∀ (p o : List (List Nat)) (n : Nat),
      (runCycles ⟨[], true, p, o, n⟩ bufs).1 = bufs.map some ∧
      (runCycles ⟨[], true, p, o, n⟩ bufs).2.allocCount
        = n + (if p = [] ∧ bufs ≠ [] then 1 else 0) := by
  induction bufs with
  | nil => intro p o n; simp [runCycles]
  | cons buf bufs ih =>
    intro p o n
    cases p with
    | nil =>
      rw [runCycles, cycle_pool_nil]
      dsimp only
      have h := ih [buf] o (n + 1)
      refine ⟨by simp [h.1], ?_⟩
      rw [h.2]
      simp
    | cons b pb =>
      rw [runCycles, cycle_pool_cons]
      dsimp only
      have h := ih (poolReturn pb buf) o n
      refine ⟨by simp [h.1], ?_⟩
      rw [h.2]
      simp [poolReturn_ne_nil]

/-! ## Claim C9 -/

/-- Claim C9: `LogSender::write` never reports failure to the producer — for
every bridge state (receiver alive or torn down, free list in any state) and
every buffer, it returns `Ok` carrying the full input length, even when the
payload was redirected to the stdout fallback. -/
theorem sender_write_always_ok (s : BridgeState) (buf : List Nat) :
    (senderWrite s buf).2 = .ok buf.length := by
  obtain ⟨c, a, p, o, n⟩ := s
  cases p <;> cases a <;> rfl

/-! ## Claim C4 -/

/-- Claim C4 as stated is false: a write issued after `close()` but before
the background consumer has observed the sentinel is enqueued *behind* the
sentinel and succeeds (`Ok 5`), yet when the consumer then runs it stops at
the sentinel and drops the receiver, discarding the payload: the bytes appear
neither among the delivered payloads nor on the stdout fallback — they are
silently dropped. -/
theorem close_then_send_counterexample :
    (senderWrite (senderClose initBridge) [104, 101, 108, 108, 111]).2
        = .ok 5 ∧
    (consumerRun (senderWrite (senderClose initBridge)
        [104, 101, 108, 108, 111]).1).1 = [] ∧
    (consumerRun (senderWrite (senderClose initBridge)
        [104, 101, 108, 108, 111]).1).2.stdout = [] ∧
    (consumerRun (senderWrite (senderClose initBridge)
        [104, 101, 108, 108, 111]).1).2.receiverAlive = false :=
  ⟨rfl, rfl, rfl, rfl⟩

/-- Claim C4, amended: writes never return an error (always `Ok(len)`), and
once the consumer has torn down the receiving side, a write leaves the
channel untouched and falls back to printing the payload to stdout — the
bytes appear on stdout verbatim whenever they are valid UTF-8 (the fallback
`print!` prints nothing for invalid UTF-8).  Between `close()` and the
consumer observing the sentinel, a write still succeeds but its payload is
enqueued behind the sentinel and is discarded unread. -/
theorem close_then_send_fallback_amended (s : BridgeState) (buf : List Nat)
    (hdead : s.receiverAlive = false) :
    (senderWrite s buf).2 = .ok buf.length ∧
    (senderWrite s buf).1.chan = s.chan ∧
    (utf8Valid buf = true →
      (senderWrite s buf).1.stdout = s.stdout ++ [buf]) := by
  obtain ⟨c, a, p, o, n⟩ := s
  dsimp only at hdead
  subst hdead
  cases p with
  | nil =>
    refine ⟨rfl, rfl, ?_⟩
    intro hv
    simp [senderWrite, utf8Print, hv]
  | cons b pb =>
    refine ⟨rfl, rfl, ?_⟩
    intro hv
    simp [senderWrite, utf8Print, truncateExtend, hv]

/-- Witness for the amended C4 at a concrete input: with the receiver gone,
writing "hello" succeeds and the bytes land on stdout. -/
theorem close_then_send_fallback_witness :
    (senderWrite ⟨[], false, [], [], 0⟩ [104, 101, 108, 108, 111]).2
        = .ok 5 ∧
    (senderWrite ⟨[], false, [], [], 0⟩ [104, 101, 108, 108, 111]).1.stdout
        = [[104, 101, 108, 108, 111]] := by
  have h := close_then_send_fallback_amended ⟨[], false, [], [], 0⟩
    [104, 101, 108, 108, 111] rfl
  refine ⟨h.1, ?_⟩
  rw [h.2.2 (by decide)]
  rfl

/-! ## Claim C7 -/

/-- Claim C7 as stated is false: `close()` sends one sentinel per invocation
(`let _ = self.sender.send(None)`), so two `close()` calls with the receiver
still alive leave two sentinels in the channel, not exactly one. -/
theorem close_once_counterexample :
    ((senderClose (senderClose initBridge)).chan.count none) = 2 ∧
    ((senderClose initBridge).chan.count none) = 1 := by decide

/-- Claim C7, amended: each `close()` call enqueues exactly one sentinel
while the receiver is alive and is a no-op after the receiver is gone; the
effect is idempotent — the consumer stops at the first sentinel, so running
it after two closes is indistinguishable from running it after one — and a
send issued after a close never raises an error. -/
theorem close_idempotent_amended (s : BridgeState) :
    (s.receiverAlive = true → (senderClose s).chan = s.chan ++ [none]) ∧
    (s.receiverAlive = false → senderClose s = s) ∧
    consumerRun (senderClose (senderClose s)) = consumerRun (senderClose s) ∧
    (∀ buf : List Nat,
      (senderWrite (senderClose s) buf).2 = .ok buf.length) := by
  obtain ⟨c, a, p, o, n⟩ := s
  cases a with
  | false =>
    refine ⟨?_, ?_, ?_, ?_⟩
    · intro hc; cases hc
    · intro _; rfl
    · rfl
    · intro buf
      exact sender_write_always_ok _ buf
  | true =>
    refine ⟨?_, ?_, ?_, ?_⟩
    · intro _; rfl
    · intro hc; cases hc
    · show consumerRun ⟨(c ++ [none]) ++ [none], true, p, o, n⟩
        = consumerRun ⟨c ++ [none], true, p, o, n⟩
      rw [consumerRun, consumerRun]
      dsimp only
      rw [List.append_assoc]
      exact consumerRunAux_double true c p o n
    · intro buf
      exact sender_write_always_ok _ buf

/-- Witness for the amended C7 at a concrete input. -/
theorem close_idempotent_witness :
    (senderClose initBridge).chan = [none] ∧
    consumerRun (senderClose (senderClose initBridge))
      = consumerRun (senderClose initBridge) :=
  ⟨by rw [(close_idempotent_amended initBridge).1 rfl]; rfl,
   (close_idempotent_amended initBridge).2.2.1⟩

/-! ## Claim C6 -/

/-- Claim C6: buffer reuse and payload fidelity.  (a) Whatever the pool
state, the buffer enqueued for the consumer contains exactly the bytes passed
to `write` — a reused buffer is truncated and refilled, a fresh one is a copy.
(b) Sending N payloads sequentially, with the consumer draining and releasing
each entry before the next send, delivers every payload intact and allocates
exactly one fresh buffer in total (none for N = 0): every later send pops the
previously returned buffer from the free list. -/
theorem buffer_reuse :
    (∀ (s : BridgeState) (buf : List Nat), s.receiverAlive = true →
      (senderWrite s buf).1.chan = s.chan ++ [some buf]) ∧
    (∀ bufs : List (List Nat),
      (runCycles initBridge bufs).1 = bufs.map some ∧
      (runCycles initBridge bufs).2.allocCount
          = (if bufs = [] then 0 else 1) ∧
      (runCycles initBridge bufs).2.allocCount ≤ 1) := by
  constructor
  · intro s buf halive
    obtain ⟨c, a, p, o, n⟩ := s
    dsimp only at halive
    subst halive
    cases p with
    | nil => rfl
    | cons b pb => simp [senderWrite, truncateExtend]
  · intro bufs
    have h := runCycles_aux bufs [] [] 0
    have hinit : initBridge = ⟨[], true, [], [], 0⟩ := rfl
    rw [hinit]
    refine ⟨h.1, ?_, ?_⟩
    · rw [h.2]
      cases bufs <;> simp
    · rw [h.2]
      cases bufs <;> simp

/-- Witness for C6 at a concrete input: two sequential cycles deliver both
payloads byte-identically and allocate exactly one buffer. -/
theorem buffer_reuse_witness :
    (senderWrite ⟨[], true, [], [], 0⟩ [1, 2]).1.chan = [some [1, 2]] ∧
    (runCycles initBridge [[1], [2, 3]]).1 = [some [1], some [2, 3]] ∧
    (runCycles initBridge [[1], [2, 3]]).2.allocCount = 1 := by
  refine ⟨?_, ?_, ?_⟩
  · rw [buffer_reuse.1 ⟨[], true, [], [], 0⟩ [1, 2] rfl]
    rfl
  · exact (buffer_reuse.2 [[1], [2, 3]]).1
  · rw [(buffer_reuse.2 [[1], [2, 3]]).2.1]
    decide

/-! ## Claim C8 -/

theorem drainMsgs_always_closed :
    ∀ q : List (Option (List Nat)),
      drainMsgs false (q ++ [none])
        = ((payloadsBeforeSentinel q).map Ev.writePayload, true) := by
  intro q
  induction q with
  | nil => rfl
  | cons x q ih =>
    cases x with
    | none => rfl
    | some b => simp [drainMsgs, payloadsBeforeSentinel, ih]

theorem finishAfterClose_spec (lines : Nat) (raw : Bool)
    (q : List (Option (List Nat))) :
    writesOf (finishAfterClose lines raw (q ++ [none]))
        = payloadsBeforeSentinel q ∧
    cbCount (finishAfterClose lines raw (q ++ [none])) = 0 := by
  cases q with
  | nil => exact ⟨rfl, rfl⟩
  | cons x rest =>
    cases x with
    | none => exact ⟨rfl, rfl⟩
    | some b =>
      have hb : handleBurst lines raw b (rest ++ [none]) false 0
          = (burstBody lines raw b (payloadsBeforeSentinel rest), none) := by
        simp [handleBurst, drainMsgs_always_closed, burstBody]
      have hfin : finishAfterClose lines raw ((some b :: rest) ++ [none])
          = (handleBurst lines raw b (rest ++ [none]) false 0).1 := rfl
      rw [hfin, hb]
      exact ⟨by rw [writesOf_burstBody]; rfl,
        cbCount_burstBody lines raw b (payloadsBeforeSentinel rest)⟩

/-- Claim C8: dropping a `ThreadedHandler` whose join handle is still present
first enqueues the close sentinel behind everything already pending and then
joins: the drop completes only with the background thread's final run in
hand, and that run writes exactly the payloads queued before the first
sentinel, performs no further render callback, and exits on observing the
sentinel.  The handle is taken, so the join happens exactly once — a second
drop joins nothing — and the drop panics exactly when the background thread
panicked. -/
theorem teardown_drop (h : HandlerState) (pan : Bool)
    (hth : h.thread = some pan) :
    (dropHandler h).state.thread = none ∧
    (dropHandler h).panics = pan ∧
    (dropHandler (dropHandler h).state).consumerTrace = none ∧
    (dropHandler (dropHandler h).state).panics = false ∧
    ∃ tr, (dropHandler h).consumerTrace = some tr ∧
      writesOf tr = payloadsBeforeSentinel h.pending ∧
      cbCount tr = 0 := by
  obtain ⟨pend, lines, raw, th⟩ := h
  dsimp only at hth
  subst hth
  exact ⟨rfl, rfl, rfl, rfl, finishAfterClose lines raw (pend ++ [none]), rfl,
    (finishAfterClose_spec lines raw pend).1,
    (finishAfterClose_spec lines raw pend).2⟩

/-- Witness for C8 at a concrete input: dropping a handler with one pending
payload and a live, non-panicked thread clears the join handle and does not
panic. -/
theorem teardown_drop_witness :
    (dropHandler ⟨[some [1]], 0, false, some false⟩).state.thread = none ∧
    (dropHandler ⟨[some [1]], 0, false, some false⟩).panics = false :=
  ⟨(teardown_drop ⟨[some [1]], 0, false, some false⟩ false rfl).1,
   (teardown_drop ⟨[some [1]], 0, false, some false⟩ false rfl).2.1⟩

/-- Witness for the amended C5 at a concrete input: a successful raw-mode
write balances its disables and enables. -/
theorem raw_mode_pairing_witness :
    (unthreadedWrite 0 true [65] ⟨none, some 0⟩).trace.count Ev.disableRaw
      = (unthreadedWrite 0 true [65] ⟨none, some 0⟩).trace.count
          Ev.enableRaw :=
  (raw_mode_pairing_amended 0 [65] ⟨none, some 0⟩).1

/-- Witness for C10 at a concrete input: a burst whose drain hits the
sentinel yields no new line count. -/
theorem drain_closed_no_render_witness :
    (handleBurst 1 false [1] ([[2]].map some ++ none :: []) false 0).2
      = none := by
  rw [(drain_closed_no_render 1 false [1] [[2]] [] false 0).1]

end TracingStatusbar
